import Mathlib

/-!
Shallow embedding of `src/dlopen.c` (lua-dlopen): a Lua binding that loads a
shared library, declares symbols with a typed signature (`dlsym_lua`), and
invokes them through libffi (`symcall_lua`).  Machine integers are modelled as
`Int` with explicit wrapping at the union-field width; Lua numbers
(`lua_Number`, an IEEE double) are modelled as rationals, every finite double
being a rational.  The platform is the LP64 one the source is built for
(`char` signed, `long`/`size_t` 64-bit, `lua_Integer` = `int64_t`).
Foreign effects (`dlsym`, `ffi_prep_cif`, `dlclose`, the native call made by
`ffi_call`) are oracle parameters, so that theorems can state that a result
does not depend on them.
-/

namespace Dlopen

/-- The `datatype_t` enumeration of `dlopen.c` (the `T_LAST` sentinel is only
an array bound in C and is not a value of the model). -/
inductive Datatype where
  | T_VOID
  | T_VOID_PTR
  | T_CHAR_PTR
  | T_CHAR
  | T_SCHAR
  | T_UCHAR
  | T_SHORT
  | T_USHORT
  | T_INT8
  | T_UINT8
  | T_INT16
  | T_UINT16
  | T_INT
  | T_UINT
  | T_INT32
  | T_UINT32
  | T_INT64
  | T_UINT64
  | T_LONG
  | T_ULONG
  | T_LONG_LONG
  | T_ULONG_LONG
  | T_FLOAT
  | T_DOUBLE
  | T_SIZE_T
  | T_SSIZE_T
deriving DecidableEq, Repr

/-- `FFI_MAX_ARGS` from `dlopen.c`. -/
def FFI_MAX_ARGS : Nat := 32

/-- Signedness and bit width of the `callval_u` union field used for each
integer tag (LP64: `char` signed, `short` 16, `int` 32, `long` / `long long`
/ `size_t` / `ssize_t` 64).  `none` for the non-integer tags. -/
def intWidth : Datatype → Option (Bool × Nat)
  | .T_CHAR       => some (true, 8)
  | .T_SCHAR      => some (true, 8)
  | .T_UCHAR      => some (false, 8)
  | .T_SHORT      => some (true, 16)
  | .T_USHORT     => some (false, 16)
  | .T_INT8       => some (true, 8)
  | .T_UINT8      => some (false, 8)
  | .T_INT16      => some (true, 16)
  | .T_UINT16     => some (false, 16)
  | .T_INT        => some (true, 32)
  | .T_UINT       => some (false, 32)
  | .T_INT32     => some (true, 32)
  | .T_UINT32     => some (false, 32)
  | .T_INT64      => some (true, 64)
  | .T_UINT64     => some (false, 64)
  | .T_LONG       => some (true, 64)
  | .T_ULONG      => some (false, 64)
  | .T_LONG_LONG  => some (true, 64)
  | .T_ULONG_LONG => some (false, 64)
  | .T_SIZE_T     => some (false, 64)
  | .T_SSIZE_T    => some (true, 64)
  | _             => none

/-- A caller-visible Lua value.  Strings are byte lists (Lua strings may
contain NUL bytes); `lightuserdata`/`userdata` carry the address
`lua_topointer` would return, with `0` standing for the null pointer. -/
inductive LuaValue where
  | nil
  | boolean (b : Bool)
  | int (n : Int)
  | num (q : ℚ)
  | str (s : List Nat)
  | lightuserdata (p : Nat)
  | userdata (p : Nat)
  | table (id : Nat)
deriving DecidableEq, Repr

/-- Value of a decimal digit byte, `none` for a non-digit. -/
def digVal (b : Nat) : Option Nat :=
  if 48 ≤ b ∧ b ≤ 57 then some (b - 48) else none

/-- Value of a nonempty all-digit byte list. -/
def digitsVal (l : List Nat) : Option Nat :=
  if l = [] then none
  else
    List.foldl
      (fun acc b =>
        match acc, digVal b with
        | some a, some d => some (a * 10 + d)
        | _, _ => none)
      (some 0) l

/-- Lua's string-to-number coercion, modelled for plain decimal numerals with
an optional leading sign (hexadecimal, fractional and exponent forms, and
surrounding whitespace, accepted by the Lua runtime, are not modelled; the
claims quantify only over values this model judges coercible or not). -/
def strToInt (s : List Nat) : Option Int :=
  match s with
  | 45 :: rest => (digitsVal rest).map (fun n => -(n : Int))
  | 43 :: rest => (digitsVal rest).map (fun n => (n : Int))
  | _ => (digitsVal s).map (fun n => (n : Int))

/-- Whether an integer fits in `lua_Integer` (`int64_t`). -/
def inInt64 (n : Int) : Bool :=
  decide (-(2 ^ 63) ≤ n) && decide (n < 2 ^ 63)

/-- `luaL_checkinteger`: accepts a Lua integer, a float with an exact integral
representation in `lua_Integer` range, or a decimal numeral string. -/
def checkinteger : LuaValue → Option Int
  | .int n => some n
  | .num q => if q.den = 1 ∧ inInt64 q.num = true then some q.num else none
  | .str s =>
    match strToInt s with
    | some n => if inInt64 n then some n else none
    | none => none
  | _ => none

/-- `luaL_checknumber`: accepts a Lua integer, a float, or a numeral string. -/
def checknumber : LuaValue → Option ℚ
  | .int n => some (n : ℚ)
  | .num q => some q
  | .str s => (strToInt s).map (fun n => (n : ℚ))
  | _ => none

/-- Value of an unsigned `bits`-wide field holding the low bits of `n`
(the effect of a C conversion to the unsigned type). -/
def wrapUnsigned (bits : Nat) (n : Int) : Int := n % 2 ^ bits

/-- Value of a signed two's-complement `bits`-wide field holding the low bits
of `n` (the effect of a C conversion to the signed type). -/
def wrapSigned (bits : Nat) (n : Int) : Int :=
  let m := n % 2 ^ bits
  if m < 2 ^ (bits - 1) then m else m - 2 ^ bits

/-- C conversion of `lua_Integer` value `n` into the union field of the given
signedness and width (the `(typeof(RVAL))LUA_CHECK_FUNC(L, index)` cast in
`CHECK_RVAL2LVAL`). -/
def castToField (sgn : Bool) (bits : Nat) (n : Int) : Int :=
  if sgn then wrapSigned bits n else wrapUnsigned bits n

/-- Structural worker for `oddFactor`: the first argument is fuel, at least
the number being factored, so it never runs out. -/
def oddFactorAux : Nat → Nat → Nat × Nat
  | 0, n => (n, 0)
  | fuel + 1, n =>
    if n % 2 = 0 ∧ n ≠ 0 then
      let p := oddFactorAux fuel (n / 2)
      (p.1, p.2 + 1)
    else (n, 0)

/-- Odd factor and 2-adic valuation: `oddFactor n = (m, e)` with
`n = m * 2 ^ e` and `m` odd, for `n > 0`. -/
def oddFactor (n : Nat) : Nat × Nat := oddFactorAux n n

/-- Whether a rational is exactly representable as an IEEE-754 binary32
value: zero, or `± m * 2 ^ e` with `m < 2 ^ 24`, `-149 ≤ e` and the scaled
significand still below `2 ^ 24` when the exponent exceeds the maximum 104
(the denominator of a reduced representable rational must be a power of
two). -/
def canBeF32 (q : ℚ) : Bool :=
  if q = 0 then true
  else
    let pd := oddFactor q.den
    if pd.1 ≠ 1 then false
    else
      let k := pd.2
      let p := oddFactor q.num.natAbs
      let e0 : Int := (p.2 : Int) - (k : Int)
      decide (-149 ≤ e0) && decide (p.1 * 2 ^ (e0 - 104).toNat < 2 ^ 24)

/-- Placeholder rounding to the binary32 subnormal grid, used only off the
representable domain (the C `double` → `float` conversion is exact on every
binary32-representable value, which is all the round-trip claims use). -/
def f32chop (q : ℚ) : ℚ := (⌊q * 2 ^ 149⌋ : ℚ) / 2 ^ 149

/-- The C `double` → `float` conversion: the identity on binary32
representable values, a placeholder truncation elsewhere. -/
def f32truncate (q : ℚ) : ℚ := if canBeF32 q then q else f32chop q

/-- Content of a `callval_u` slot.  Integer fields are collapsed into one
constructor holding the stored (already width-wrapped) value; `pointer 0` is
the null pointer; a `cstring` slot records the bytes the `char *` points at,
`none` for null.  Reading a union field of a kind other than the one written
(impossible in the C code, where the same `ret_type`-indexed field is written
by `ffi_call` and read by the push switch) is not modelled. -/
inductive RawSlot where
  | pointer (p : Nat)
  | cstring (s : Option (List Nat))
  | intv (v : Int)
  | floatv (q : ℚ)
  | doublev (q : ℚ)
deriving DecidableEq, Repr

/-- The expected-category part of the argument error messages of
`symcall_lua`: `luaL_checkinteger` / `luaL_checknumber` failures, and the
explicit `void* requires nil, lightuserdata or userdata` /
`char* requires nil or string` messages. -/
inductive ArgExpected where
  | integerCat
  | numberCat
  | voidPtrCat
  | charPtrCat
deriving DecidableEq, Repr

/-- Result of checking one argument in the `symcall_lua` loop. -/
inductive ArgCheck where
  | ok (s : RawSlot)
  | voidArg
  | mismatch (e : ArgExpected)
deriving DecidableEq, Repr

/-- One `CHECK_CASE` of `symcall_lua`: `luaL_checkinteger` then the cast into
the union field of the tag's signedness and width. -/
def intArg (t : Datatype) (v : LuaValue) : ArgCheck :=
  match intWidth t with
  | some sb =>
    match checkinteger v with
    | some n => .ok (.intv (castToField sb.1 sb.2 n))
    | none => .mismatch .integerCat
  | none => .mismatch .integerCat

/-- The body of the argument-checking `switch` of `symcall_lua` for one
position: the `T_VOID` guard, the `T_VOID_PTR` / `T_CHAR_PTR` cases, the
`luaL_checknumber` cases and the `CHECK_CASE` integer cases (every tag other
than the five listed is an integer tag, dispatched through `intWidth`). -/
def checkArg (t : Datatype) (v : LuaValue) : ArgCheck :=
  match t with
  | .T_VOID => .voidArg
  | .T_VOID_PTR =>
    match v with
    | .nil => .ok (.pointer 0)
    | .lightuserdata p => .ok (.pointer p)
    | .userdata p => .ok (.pointer p)
    | _ => .mismatch .voidPtrCat
  | .T_CHAR_PTR =>
    match v with
    | .nil => .ok (.cstring none)
    | .str s => .ok (.cstring (some s))
    | _ => .mismatch .charPtrCat
  | .T_FLOAT =>
    match checknumber v with
    | some q => .ok (.floatv (f32truncate q))
    | none => .mismatch .numberCat
  | .T_DOUBLE =>
    match checknumber v with
    | some q => .ok (.doublev q)
    | none => .mismatch .numberCat
  | t => intArg t v

/-- Expected category named by the error message for each argument tag. -/
def expectedCat (t : Datatype) : ArgExpected :=
  match t with
  | .T_VOID_PTR => .voidPtrCat
  | .T_CHAR_PTR => .charPtrCat
  | .T_FLOAT => .numberCat
  | .T_DOUBLE => .numberCat
  | _ => .integerCat

/-- Whether a caller value can be coerced to the declared tag's native
representation (the checking step of `symcall_lua` succeeds on it). -/
def canCoerce (t : Datatype) (v : LuaValue) : Bool :=
  match checkArg t v with
  | .ok _ => true
  | _ => false

/-- An argument error raised by the checking loop, carrying the 1-indexed
position the message reports (`i + 1` in the explicit messages;
`luaL_argerror` at stack index `2 + i` reports the same number after its
method-call adjustment). -/
inductive ArgError where
  | voidArg (pos : Nat)
  | typeErr (pos : Nat) (expected : ArgExpected)
deriving DecidableEq, Repr

/-- The `for (int i = 0; ...)` argument loop of `symcall_lua`, with `i`
starting at `k`: checks each position in order and stops at the first
failure; a missing stack value reads as `LUA_TNONE`, which the checks treat
like `nil`. -/
def checkArgsFrom (k : Nat) : List Datatype → List LuaValue → Except ArgError (List RawSlot)
  | [], _ => .ok []
  | t :: ts, vs =>
    match checkArg t (vs.headD .nil) with
    | .voidArg => .error (.voidArg (k + 1))
    | .mismatch e => .error (.typeErr (k + 1) e)
    | .ok s =>
      match checkArgsFrom (k + 1) ts vs.tail with
      | .error e => .error e
      | .ok rest => .ok (s :: rest)

/-- Successful outcome of an invocation: no value pushed (`void` return) or
one pushed value. -/
inductive InvokeOk where
  | noValue
  | value (v : LuaValue)
deriving DecidableEq, Repr

/-- The return-value push switch of `symcall_lua`: reads the union field
selected by the return tag and pushes the caller-visible value.
`lua_pushstring` copies the bytes up to the first NUL; `lua_pushinteger`
converts the field through `lua_Integer` (64-bit wrap); a slot of a kind
other than the tag's field (impossible in the C code) pushes `nil`. -/
def pushRet (t : Datatype) (s : RawSlot) : InvokeOk :=
  match t with
  | .T_VOID => .noValue
  | .T_VOID_PTR =>
    match s with
    | .pointer p => if p = 0 then .value .nil else .value (.lightuserdata p)
    | _ => .value .nil
  | .T_CHAR_PTR =>
    match s with
    | .cstring none => .value .nil
    | .cstring (some bytes) => .value (.str (bytes.takeWhile (fun b => b != 0)))
    | _ => .value .nil
  | .T_FLOAT =>
    match s with
    | .floatv q => .value (.num q)
    | _ => .value .nil
  | .T_DOUBLE =>
    match s with
    | .doublev q => .value (.num q)
    | _ => .value .nil
  | t =>
    match intWidth t, s with
    | some sb, .intv m => .value (.int (wrapSigned 64 (castToField sb.1 sb.2 m)))
    | _, _ => .value .nil

/-- A `syminfo_st` entry: the declared name's length (`len`), the bytes of
the `strdup`ed name (`name`, NUL-free since `strdup` stops at the first NUL),
the declared signature and the resolved address.  The Lua registry reference
and the prepared `ffi_cif` carry no further observable state and are
omitted. -/
structure Syminfo where
  len : Nat
  name : List Nat
  ret_type : Datatype
  arg_types : List Datatype
  addr : Nat
deriving DecidableEq, Repr

/-- The errors `symcall_lua` can raise before or instead of pushing a
result. -/
inductive SymcallErr where
  | countMismatch (name : List Nat) (expected got : Nat)
  | unsupportedRet (name : List Nat)
  | argError (e : ArgError)
deriving DecidableEq, Repr

/-- Whether `RETVAL[t]` is the null pointer: only `T_VOID` maps to `NULL` in
the `RETVAL` table of `symcall_lua`. -/
def retvalSlotNull : Datatype → Bool
  | .T_VOID => true
  | _ => false

/-- `symcall_lua`: count check, the (dead) `!ret_value && ret_type != T_VOID`
guard, the argument-checking loop, the `ffi_call` (the oracle `native` maps
the marshalled slots to the union content the call writes back), and the
return push.  The push switch's `default` branch is unreachable over the
closed `Datatype` enumeration and has no counterpart here. -/
def symcall (sym : Syminfo) (args : List LuaValue) (native : List RawSlot → RawSlot) :
    Except SymcallErr InvokeOk :=
  if args.length ≠ sym.arg_types.length then
    .error (.countMismatch sym.name sym.arg_types.length args.length)
  else if retvalSlotNull sym.ret_type && !(sym.ret_type == .T_VOID) then
    .error (.unsupportedRet sym.name)
  else
    match checkArgsFrom 0 sym.arg_types args with
    | .error e => .error (.argError e)
    | .ok slots => .ok (pushRet sym.ret_type (native slots))

/-- A `dso_t`: `isOpen` models `handle != NULL`, `path` the `strdup`ed path
(`none` once freed), `symbols` the singly linked `symbols_head` list in
insertion order (`dlsym_lua` appends at `symbols_tail`). -/
structure Dso where
  isOpen : Bool
  path : Option (List Nat)
  symbols : List Syminfo
deriving DecidableEq, Repr

/-- `strncmp(a, b, n) == 0` on C strings modelled as NUL-free byte lists: a
position past the end of a list reads as the NUL terminator, and the
comparison stops early at a NUL common to both strings. -/
def strncmpEq : List Nat → List Nat → Nat → Bool
  | _, _, 0 => true
  | a, b, n + 1 =>
    let x := a.headD 0
    let y := b.headD 0
    if x ≠ y then false
    else if x = 0 then true
    else strncmpEq a.tail b.tail n

/-- The bytes of `"dlsym"`. -/
def dlsymName : List Nat := [100, 108, 115, 121, 109]

/-- The bytes of `"dlclose"`. -/
def dlcloseName : List Nat := [100, 108, 99, 108, 111, 115, 101]

/-- The symbol-traversal loop of `index_lua`: first entry, in insertion
order, with `len == sym->len && strncmp(method, sym->name, len) == 0`. -/
def lookupSym (q : List Nat) : List Syminfo → Option Syminfo
  | [] => none
  | s :: rest =>
    if (q.length == s.len) && strncmpEq q s.name q.length then some s
    else lookupSym q rest

/-- Errors `index_lua` raises: `"module is closed"` on a closed handle, and
the unknown-field error when no method or symbol matches. -/
inductive LuaErr where
  | alreadyClosed
  | unknownField (m : List Nat)
deriving DecidableEq, Repr

/-- What `index_lua` leaves on the stack on success: the `dlsym_lua` or
`dlclose_lua` C function, or a `symcall_lua` closure over a symbol. -/
inductive IndexResult where
  | fnDlsym
  | fnDlclose
  | symClosure (s : Syminfo)
deriving DecidableEq, Repr

/-- `index_lua`: the closed-handle check comes first, then the
`strncmp(method, "dlsym", len)` / `strncmp(method, "dlclose", len)` dispatch
(`len` is the method's length, so these match any NUL-free prefix of the
method names), then the symbol traversal. -/
def index_lua (dso : Dso) (method : List Nat) : Except LuaErr IndexResult :=
  if !dso.isOpen then .error .alreadyClosed
  else if strncmpEq method dlsymName method.length then .ok .fnDlsym
  else if strncmpEq method dlcloseName method.length then .ok .fnDlclose
  else
    match lookupSym method dso.symbols with
    | some s => .ok (.symClosure s)
    | none => .error (.unknownField method)

/-- `dso_close`: on an open handle, frees the path, releases every symbol
entry, nulls the handle and returns `dlclose`'s status (the oracle `unload`);
on an already-closed handle it returns `0` and changes nothing.  The C code
leaves `symbols_head` dangling at the released entries; the model clears the
list, which is observationally equal because every entry's owned state has
been released and the closed-handle check blocks any further traversal. -/
def dso_close (dso : Dso) (unload : Int) : Int × Dso :=
  if dso.isOpen then (unload, ⟨false, none, []⟩)
  else (0, dso)

/-- What `dlclose_lua` reports: `true`, or `false` plus the `dlerror`
message. -/
inductive CloseRet where
  | success
  | failure
deriving DecidableEq, Repr

/-- `dlclose_lua`: runs `dso_close` and reports success exactly when it
returned `0`. -/
def dlclose_lua (dso : Dso) (unload : Int) : CloseRet × Dso :=
  let r := dso_close dso unload
  if r.1 = 0 then (.success, r.2) else (.failure, r.2)

/-- `ffi_status` as far as `dlsym_lua` distinguishes it. -/
inductive FfiStatus where
  | ok
  | badTypedef
  | badAbi
  | badArgtype
deriving DecidableEq, Repr

/-- The failures `dlsym_lua` reports (as `false` plus a message). -/
inductive DeclErr where
  | tooManyArguments
  | voidArgType
  | symNotFound (name : List Nat)
  | ffiPrepFailed (st : FfiStatus)
deriving DecidableEq, Repr

/-- `dlsym_lua`: with a return tag, a name and `argTags` on the stack,
`nargs = 2 + argTags.length`; the count bound (`2 ≤ nargs ≤ FFI_MAX_ARGS + 2`)
is checked first, then each argument tag is checked in order and `T_VOID`
rejected, then the name is `strdup`ed (truncating at the first NUL — modelled
by `takeWhile`; allocation is assumed to succeed), then `dlsym` (the oracle
`resolve`) and `ffi_prep_cif` (the oracle `prep`) run; only on full success
is a new `syminfo_st` appended at the tail of the symbol list. -/
def dlsym_lua (dso : Dso) (ret : Datatype) (name : List Nat) (argTags : List Datatype)
    (resolve : List Nat → Option Nat) (prep : FfiStatus) :
    Except DeclErr Unit × Dso :=
  let nargs := 2 + argTags.length
  if nargs < 2 ∨ nargs > FFI_MAX_ARGS + 2 then (.error .tooManyArguments, dso)
  else if Datatype.T_VOID ∈ argTags then (.error .voidArgType, dso)
  else
    let cname := name.takeWhile (fun b => b != 0)
    match resolve cname with
    | none => (.error (.symNotFound cname), dso)
    | some addr =>
      match prep with
      | .ok => (.ok (), ⟨dso.isOpen, dso.path, dso.symbols ++ [⟨name.length, cname, ret, argTags, addr⟩]⟩)
      | st => (.error (.ffiPrepFailed st), dso)

/-- One caller-level operation on a library handle, with the foreign oracles
it needs. -/
inductive Op where
  | decl (ret : Datatype) (name : List Nat) (tags : List Datatype)
      (resolve : List Nat → Option Nat) (prep : FfiStatus)
  | closeLib (unload : Int)
  | call (args : List LuaValue)

/-- The effect of one operation on the `dso_t` state (`symcall_lua` never
touches the `dso_t`). -/
def step (dso : Dso) : Op → Dso
  | .decl r n t res p => (dlsym_lua dso r n t res p).2
  | .closeLib u => (dso_close dso u).2
  | .call _ => dso

/-- The `dso_t` produced by a successful `new_lua` (open handle, duplicated
path, empty symbol list). -/
def initDso (path : List Nat) : Dso := ⟨true, some path, []⟩

/-- Whether an integer fits the given signedness and width without
wrapping. -/
def intFits (sgn : Bool) (bits : Nat) (n : Int) : Bool :=
  if sgn then decide (-(2 ^ (bits - 1)) ≤ n) && decide (n < 2 ^ (bits - 1))
  else decide (0 ≤ n) && decide (n < 2 ^ bits)

/-- A caller value representable in a tag's native width: an integer in the
tag's range (and in `lua_Integer` range, since every Lua integer is), a
binary32-representable float for `T_FLOAT`, any float for `T_DOUBLE`, nil or
a non-null `lightuserdata` for `T_VOID_PTR`, nil or a NUL-free string for
`T_CHAR_PTR`. -/
def representable (t : Datatype) (v : LuaValue) : Bool :=
  match t, v with
  | .T_VOID_PTR, .nil => true
  | .T_VOID_PTR, .lightuserdata p => p != 0
  | .T_CHAR_PTR, .nil => true
  | .T_CHAR_PTR, .str s => decide (0 ∉ s)
  | .T_FLOAT, .num q => canBeF32 q
  | .T_DOUBLE, .num _ => true
  | t, .int n =>
    match intWidth t with
    | some sb => inInt64 n && intFits sb.1 sb.2 n
    | none => false
  | _, _ => false

/-- Invariant of a `dso_t`: every stored symbol has at most `FFI_MAX_ARGS`
argument tags and no `T_VOID` among them. -/
def DsoInv (d : Dso) : Prop :=
  ∀ s ∈ d.symbols, s.arg_types.length ≤ FFI_MAX_ARGS ∧ Datatype.T_VOID ∉ s.arg_types

/-! Helper lemmas about the width-wrapping arithmetic and the lookup loop. -/

lemma wrapUnsigned_eq_self (bits : Nat) (n : Int) (h1 : 0 ≤ n) (h2 : n < 2 ^ bits) :
    wrapUnsigned bits n = n :=
  Int.emod_eq_of_lt h1 h2

lemma wrapSigned_eq_self (b : Nat) (n : Int) (h1 : -(2 ^ b) ≤ n) (h2 : n < 2 ^ b) :
    wrapSigned (b + 1) n = n := by
  have hpow : (2 : Int) ^ (b + 1) = 2 ^ b + 2 ^ b := by rw [pow_succ]; ring
  have hbpos : (0 : Int) < 2 ^ b := by positivity
  unfold wrapSigned
  simp only [Nat.add_sub_cancel]
  rcases le_or_lt 0 n with hn | hn
  · rw [Int.emod_eq_of_lt hn (by omega), if_pos h2]
  · have key : n % 2 ^ (b + 1) = (n + 2 ^ (b + 1) * 1) % 2 ^ (b + 1) :=
      (Int.add_mul_emod_self_left n (2 ^ (b + 1)) 1).symm
    rw [mul_one] at key
    rw [key, Int.emod_eq_of_lt (by omega) (by omega), if_neg (by omega)]
    omega

lemma int_roundtrip_s (b : Nat) (hb : b ≤ 63) (n : Int)
    (hl : -(2 ^ b) ≤ n) (hu : n < 2 ^ b) :
    wrapSigned 64 (castToField true (b + 1) (castToField true (b + 1) n)) = n := by
  have hmono : (2 : Int) ^ b ≤ 2 ^ 63 := pow_le_pow_right₀ one_le_two hb
  have h1 : castToField true (b + 1) n = n := by
    unfold castToField
    rw [if_pos rfl]
    exact wrapSigned_eq_self b n hl hu
  rw [h1, h1]
  have : (64 : Nat) = 63 + 1 := rfl
  rw [this]
  exact wrapSigned_eq_self 63 n (by omega) (by omega)

lemma int_roundtrip_u (b : Nat) (n : Int)
    (h0 : 0 ≤ n) (hu : n < 2 ^ b) (h63 : n < 2 ^ 63) :
    wrapSigned 64 (castToField false b (castToField false b n)) = n := by
  have h1 : castToField false b n = n := by
    unfold castToField
    rw [if_neg (by simp)]
    exact wrapUnsigned_eq_self b n h0 hu
  rw [h1, h1]
  have : (64 : Nat) = 63 + 1 := rfl
  rw [this]
  exact wrapSigned_eq_self 63 n (by omega) h63

lemma takeWhile_ne_zero_eq (s : List Nat) (h : 0 ∉ s) :
    s.takeWhile (fun b => b != 0) = s := by
  induction s with
  | nil => rfl
  | cons a t ih =>
    simp only [List.mem_cons, not_or] at h
    simp only [List.takeWhile_cons]
    rw [if_pos (by simpa [bne] using fun ha => h.1 ha.symm)]
    rw [ih h.2]

lemma intArg_ok (t : Datatype) (sgn : Bool) (b : Nat) (hw : intWidth t = some (sgn, b))
    (n : Int) : intArg t (.int n) = .ok (.intv (castToField sgn b n)) := by
  simp [intArg, hw, checkinteger]

lemma checkArg_int (t : Datatype) (hw : (intWidth t).isSome = true) (v : LuaValue) :
    checkArg t v = intArg t v := by
  cases t <;> first | rfl | simp [intWidth] at hw

lemma pushRet_int (t : Datatype) (sgn : Bool) (b : Nat) (hw : intWidth t = some (sgn, b))
    (m : Int) :
    pushRet t (.intv m) = .value (.int (wrapSigned 64 (castToField sgn b m))) := by
  cases t <;> simp_all [pushRet, intWidth]

lemma c5_int (t : Datatype) (sgn : Bool) (b : Nat) (hw : intWidth t = some (sgn, b))
    (n : Int) (hrt : wrapSigned 64 (castToField sgn b (castToField sgn b n)) = n) :
    ∃ s, checkArg t (.int n) = .ok s ∧ pushRet t s = .value (.int n) := by
  refine ⟨.intv (castToField sgn b n), ?_, ?_⟩
  · rw [checkArg_int t (by rw [hw]; rfl) _, intArg_ok t sgn b hw n]
  · rw [pushRet_int t sgn b hw _, hrt]

/-- C5: for every supported TypeTag and every caller value representable in
that tag's native width, marshal-in (the argument-checking conversion into a
`callval_u` slot) followed by marshal-out (the return push read of the same
slot) reproduces the value exactly — integers round-trip through the
width-wrap and the `lua_Integer` conversion, binary32-representable floats
through the `double`→`float`→`double` casts, and (beyond the claim's
parenthetical scope) nil / non-null lightuserdata and NUL-free strings
round-trip through the pointer slots as well. -/
theorem c5_marshal_roundtrip (t : Datatype) (v : LuaValue)
    (h : representable t v = true) :
    ∃ s, checkArg t v = .ok s ∧ pushRet t s = .value v := by
  cases t with
  | T_VOID => cases v <;> simp [representable, intWidth] at h
  | T_VOID_PTR =>
    cases v <;> simp [representable, intWidth] at h
    · exact ⟨_, rfl, rfl⟩
    · refine ⟨_, rfl, ?_⟩
      simp [pushRet, h]
  | T_CHAR_PTR =>
    cases v <;> simp [representable, intWidth] at h
    · exact ⟨_, rfl, rfl⟩
    · refine ⟨_, rfl, ?_⟩
      simp [pushRet, takeWhile_ne_zero_eq _ h]
  | T_FLOAT =>
    cases v <;> simp [representable, intWidth] at h
    refine ⟨_, rfl, ?_⟩
    simp [pushRet, f32truncate, h]
  | T_DOUBLE =>
    cases v <;> simp [representable, intWidth] at h
    exact ⟨_, rfl, rfl⟩
  | T_CHAR =>
    cases v <;> simp [representable, intWidth, inInt64, intFits] at h
    exact c5_int .T_CHAR true 8 rfl _ (int_roundtrip_s 7 (by omega) _ (by omega) (by omega))
  | T_SCHAR =>
    cases v <;> simp [representable, intWidth, inInt64, intFits] at h
    exact c5_int .T_SCHAR true 8 rfl _ (int_roundtrip_s 7 (by omega) _ (by omega) (by omega))
  | T_UCHAR =>
    cases v <;> simp [representable, intWidth, inInt64, intFits] at h
    exact c5_int .T_UCHAR false 8 rfl _ (int_roundtrip_u 8 _ (by omega) (by omega) (by omega))
  | T_SHORT =>
    cases v <;> simp [representable, intWidth, inInt64, intFits] at h
    exact c5_int .T_SHORT true 16 rfl _ (int_roundtrip_s 15 (by omega) _ (by omega) (by omega))
  | T_USHORT =>
    cases v <;> simp [representable, intWidth, inInt64, intFits] at h
    exact c5_int .T_USHORT false 16 rfl _ (int_roundtrip_u 16 _ (by omega) (by omega) (by omega))
  | T_INT8 =>
    cases v <;> simp [representable, intWidth, inInt64, intFits] at h
    exact c5_int .T_INT8 true 8 rfl _ (int_roundtrip_s 7 (by omega) _ (by omega) (by omega))
  | T_UINT8 =>
    cases v <;> simp [representable, intWidth, inInt64, intFits] at h
    exact c5_int .T_UINT8 false 8 rfl _ (int_roundtrip_u 8 _ (by omega) (by omega) (by omega))
  | T_INT16 =>
    cases v <;> simp [representable, intWidth, inInt64, intFits] at h
    exact c5_int .T_INT16 true 16 rfl _ (int_roundtrip_s 15 (by omega) _ (by omega) (by omega))
  | T_UINT16 =>
    cases v <;> simp [representable, intWidth, inInt64, intFits] at h
    exact c5_int .T_UINT16 false 16 rfl _ (int_roundtrip_u 16 _ (by omega) (by omega) (by omega))
  | T_INT =>
    cases v <;> simp [representable, intWidth, inInt64, intFits] at h
    exact c5_int .T_INT true 32 rfl _ (int_roundtrip_s 31 (by omega) _ (by omega) (by omega))
  | T_UINT =>
    cases v <;> simp [representable, intWidth, inInt64, intFits] at h
    exact c5_int .T_UINT false 32 rfl _ (int_roundtrip_u 32 _ (by omega) (by omega) (by omega))
  | T_INT32 =>
    cases v <;> simp [representable, intWidth, inInt64, intFits] at h
    exact c5_int .T_INT32 true 32 rfl _ (int_roundtrip_s 31 (by omega) _ (by omega) (by omega))
  | T_UINT32 =>
    cases v <;> simp [representable, intWidth, inInt64, intFits] at h
    exact c5_int .T_UINT32 false 32 rfl _ (int_roundtrip_u 32 _ (by omega) (by omega) (by omega))
  | T_INT64 =>
    cases v <;> simp [representable, intWidth, inInt64, intFits] at h
    exact c5_int .T_INT64 true 64 rfl _ (int_roundtrip_s 63 (by omega) _ (by omega) (by omega))
  | T_UINT64 =>
    cases v <;> simp [representable, intWidth, inInt64, intFits] at h
    exact c5_int .T_UINT64 false 64 rfl _ (int_roundtrip_u 64 _ (by omega) (by omega) (by omega))
  | T_LONG =>
    cases v <;> simp [representable, intWidth, inInt64, intFits] at h
    exact c5_int .T_LONG true 64 rfl _ (int_roundtrip_s 63 (by omega) _ (by omega) (by omega))
  | T_ULONG =>
    cases v <;> simp [representable, intWidth, inInt64, intFits] at h
    exact c5_int .T_ULONG false 64 rfl _ (int_roundtrip_u 64 _ (by omega) (by omega) (by omega))
  | T_LONG_LONG =>
    cases v <;> simp [representable, intWidth, inInt64, intFits] at h
    exact c5_int .T_LONG_LONG true 64 rfl _ (int_roundtrip_s 63 (by omega) _ (by omega) (by omega))
  | T_ULONG_LONG =>
    cases v <;> simp [representable, intWidth, inInt64, intFits] at h
    exact c5_int .T_ULONG_LONG false 64 rfl _ (int_roundtrip_u 64 _ (by omega) (by omega) (by omega))
  | T_SIZE_T =>
    cases v <;> simp [representable, intWidth, inInt64, intFits] at h
    exact c5_int .T_SIZE_T false 64 rfl _ (int_roundtrip_u 64 _ (by omega) (by omega) (by omega))
  | T_SSIZE_T =>
    cases v <;> simp [representable, intWidth, inInt64, intFits] at h
    exact c5_int .T_SSIZE_T true 64 rfl _ (int_roundtrip_s 63 (by omega) _ (by omega) (by omega))

/-- Witness for C5 at tag `int` and caller value `5`. -/
theorem c5_witness :
    representable .T_INT (.int 5) = true ∧
      ∃ s, checkArg .T_INT (.int 5) = .ok s ∧ pushRet .T_INT s = .value (.int 5) :=
  ⟨by decide, c5_marshal_roundtrip .T_INT (.int 5) (by decide)⟩


lemma strncmpEq_eq_iff (a : List Nat) : ∀ (b : List Nat), 0 ∉ a → 0 ∉ b →
    a.length = b.length → (strncmpEq a b a.length = true ↔ a = b) := by
  induction a with
  | nil =>
    intro b _ _ hlen
    cases b with
    | nil => simp [strncmpEq]
    | cons y ys => simp at hlen
  | cons x xs ih =>
    intro b ha hb hlen
    cases b with
    | nil => simp at hlen
    | cons y ys =>
      simp only [List.mem_cons, not_or] at ha hb
      simp only [List.length_cons, Nat.add_right_cancel_iff] at hlen
      show strncmpEq (x :: xs) (y :: ys) (xs.length + 1) = true ↔ _
      by_cases hxy : x = y
      · subst hxy
        have hx0 : x ≠ 0 := fun h => ha.1 h.symm
        have hstep : strncmpEq (x :: xs) (x :: ys) (xs.length + 1) =
            strncmpEq xs ys xs.length := by
          simp [strncmpEq, hx0]
        rw [hstep, ih ys (fun h => ha.2 h) (fun h => hb.2 h) hlen]
        simp
      · have hstep : strncmpEq (x :: xs) (y :: ys) (xs.length + 1) = false := by
          simp [strncmpEq, hxy]
        rw [hstep]
        simp [hxy]

lemma lookupSym_eq_find (q : List Nat) (hq : 0 ∉ q) :
    ∀ (l : List Syminfo), (∀ s ∈ l, s.len = s.name.length ∧ 0 ∉ s.name) →
      lookupSym q l = l.find? (fun s => s.name == q) := by
  intro l
  induction l with
  | nil => intro _; rfl
  | cons s rest ih =>
    intro hwf
    have hs := hwf s (List.mem_cons_self s rest)
    have hrest := ih (fun x hx => hwf x (List.mem_cons_of_mem s hx))
    rw [lookupSym]
    by_cases hname : s.name = q
    · have hlen2 : q.length = s.name.length := by rw [hname]
      have hlen : q.length = s.len := by rw [hs.1, hname]
      have hcmp : strncmpEq q s.name q.length = true :=
        (strncmpEq_eq_iff q s.name hq hs.2 hlen2).mpr hname.symm
      rw [if_pos (by rw [hcmp]; simp [hlen])]
      simp [List.find?, hname]
    · by_cases hlen : q.length = s.len
      · have hcmpf : strncmpEq q s.name q.length = false := by
          cases hcmp2 : strncmpEq q s.name q.length
          · rfl
          · exact absurd
              ((strncmpEq_eq_iff q s.name hq hs.2 (hlen.trans hs.1)).mp hcmp2).symm hname
        rw [if_neg (by simp [hcmpf])]
        rw [hrest]
        simp [List.find?, show (s.name == q) = false by simp [hname]]
      · rw [if_neg (by simp [Bool.and_eq_true, hlen])]
        rw [hrest]
        simp [List.find?, show (s.name == q) = false by simp [hname]]

/-- C3: for every open library and every NUL-free name, the symbol lookup of
`index_lua` scans the symbol list in insertion order and returns the first
entry whose stored name is an exact match of the queried name (so a
re-declared name's later entry is unreachable: `find?` returns the first
match).  Well-formedness asks that each entry's recorded `len` equals its
stored name's length and the stored name is NUL-free, which `dlsym_lua`
guarantees for NUL-free declared names. -/
theorem c3_lookup_first_exact_match (dso : Dso) (q : List Nat)
    (hopen : dso.isOpen = true) (hq : 0 ∉ q)
    (hwf : ∀ s ∈ dso.symbols, s.len = s.name.length ∧ 0 ∉ s.name) :
    lookupSym q dso.symbols = dso.symbols.find? (fun s => s.name == q) :=
  lookupSym_eq_find q hq dso.symbols hwf

/-- Witness for C3: a table where the same name `add` was declared twice;
lookup returns the first entry. -/
theorem c3_witness :
    ((Dso.isOpen ⟨true, some [108], [⟨3, [97, 100, 100], .T_INT, [], 1⟩,
        ⟨3, [97, 100, 100], .T_LONG, [], 2⟩]⟩ = true) ∧
      (0 ∉ [97, 100, 100]) ∧
      (∀ s ∈ [(⟨3, [97, 100, 100], Datatype.T_INT, [], 1⟩ : Syminfo),
        ⟨3, [97, 100, 100], .T_LONG, [], 2⟩], s.len = s.name.length ∧ 0 ∉ s.name)) ∧
    lookupSym [97, 100, 100] [(⟨3, [97, 100, 100], Datatype.T_INT, [], 1⟩ : Syminfo),
        ⟨3, [97, 100, 100], .T_LONG, [], 2⟩] =
      List.find? (fun s => s.name == [97, 100, 100])
        [(⟨3, [97, 100, 100], Datatype.T_INT, [], 1⟩ : Syminfo),
          ⟨3, [97, 100, 100], .T_LONG, [], 2⟩] :=
  ⟨⟨rfl, by decide, by decide⟩,
    c3_lookup_first_exact_match
      ⟨true, some [108], [⟨3, [97, 100, 100], .T_INT, [], 1⟩,
        ⟨3, [97, 100, 100], .T_LONG, [], 2⟩]⟩
      [97, 100, 100] rfl (by decide) (by decide)⟩

/-- C2: on a closed handle, `index_lua` fails with the `module is closed`
(AlreadyClosed) error for every method name, before any method dispatch,
symbol traversal or native call — so every `declare` (`dlsym` access) and
every `invoke` (symbol access) performed through the handle fails there. -/
theorem c2_closed_handle_rejects (dso : Dso) (method : List Nat)
    (hclosed : dso.isOpen = false) :
    index_lua dso method = .error .alreadyClosed := by
  simp [index_lua, hclosed]

/-- Witness for C2 at the `dlsym` method name on a closed handle. -/
theorem c2_witness :
    (Dso.isOpen ⟨false, none, []⟩ = false) ∧
      index_lua ⟨false, none, []⟩ dlsymName = .error .alreadyClosed :=
  ⟨rfl, c2_closed_handle_rejects ⟨false, none, []⟩ dlsymName rfl⟩

/-- C1 counterexample: after a first successful close, the second close
performed through the handle — which must fetch `dlclose` via `index_lua` —
raises the AlreadyClosed error instead of reporting no-op success, because
the closed-handle check of `index_lua` precedes the method dispatch. -/
theorem c1_counterexample :
    dlclose_lua ⟨true, some [97], []⟩ 0 = (.success, ⟨false, none, []⟩) ∧
      index_lua ⟨false, none, []⟩ dlcloseName = .error .alreadyClosed :=
  ⟨rfl, rfl⟩

/-- C1 (amended): the close routine itself is idempotent — `dlclose_lua` on
an already-closed handle reports success and changes nothing — but fetching
`dlclose` through the handle after close fails with AlreadyClosed, so a
second close succeeds only via a close function obtained before closing (or
the `__gc` path, which calls `dso_close` directly). -/
theorem c1_amended_close_idempotent (dso : Dso) (unload : Int)
    (hclosed : dso.isOpen = false) :
    dlclose_lua dso unload = (.success, dso) ∧
      index_lua dso dlcloseName = .error .alreadyClosed := by
  constructor
  · simp [dlclose_lua, dso_close, hclosed]
  · simp [index_lua, hclosed]

/-- Witness for the amended C1 on a concrete closed handle. -/
theorem c1_amended_witness :
    (Dso.isOpen ⟨false, none, []⟩ = false) ∧
      (dlclose_lua ⟨false, none, []⟩ 7 = (.success, ⟨false, none, []⟩) ∧
        index_lua ⟨false, none, []⟩ dlcloseName = .error .alreadyClosed) :=
  ⟨rfl, c1_amended_close_idempotent ⟨false, none, []⟩ 7 rfl⟩

/-- C6: for every open library, `dlsym_lua` with more than `FFI_MAX_ARGS`
(32) argument tags fails with the too-many-arguments error for every
resolver and every `ffi_prep_cif` status, and returns the `dso_t` unchanged
(in particular the symbol count is the same before and after). -/
theorem c6_too_many_arguments (dso : Dso) (ret : Datatype) (name : List Nat)
    (argTags : List Datatype) (hopen : dso.isOpen = true)
    (hcount : argTags.length > FFI_MAX_ARGS) :
    ∀ resolve prep, dlsym_lua dso ret name argTags resolve prep =
      (.error .tooManyArguments, dso) := by
  intro resolve prep
  unfold dlsym_lua
  rw [if_pos (Or.inr (by simp only [FFI_MAX_ARGS] at hcount ⊢; omega))]

/-- Witness for C6 with 33 `int` argument tags. -/
theorem c6_witness :
    ((Dso.isOpen (initDso [108]) = true) ∧
      (List.replicate 33 Datatype.T_INT).length > FFI_MAX_ARGS) ∧
    dlsym_lua (initDso [108]) .T_INT [102] (List.replicate 33 .T_INT)
        (fun _ => some 1) .ok = (.error .tooManyArguments, initDso [108]) :=
  ⟨⟨rfl, by decide⟩,
    c6_too_many_arguments (initDso [108]) .T_INT [102] (List.replicate 33 .T_INT)
      rfl (by decide) (fun _ => some 1) .ok⟩

/-- C7 counterexample: a declaration whose 33 argument tags contain `T_VOID`
fails with the too-many-arguments error, not the void-argument error,
because `dlsym_lua` checks the argument count first. -/
theorem c7_counterexample :
    Datatype.T_VOID ∈ (List.replicate 32 Datatype.T_INT ++ [Datatype.T_VOID]) ∧
      dlsym_lua (initDso [108]) .T_INT [102]
          (List.replicate 32 .T_INT ++ [.T_VOID]) (fun _ => some 1) .ok =
        (.error .tooManyArguments, initDso [108]) ∧
      (Except.error DeclErr.tooManyArguments : Except DeclErr Unit) ≠
        .error .voidArgType :=
  ⟨by decide, rfl, by simp⟩

/-- C7 (amended): for every declaration with at most `FFI_MAX_ARGS` argument
tags containing `T_VOID` at any position, `dlsym_lua` fails with the
void-argument error and returns the state unchanged, for every resolver and
every `ffi_prep_cif` status — the result does not depend on the oracles, so
the failure happens before any native resolution is attempted. -/
theorem c7_amended_void_argument (dso : Dso) (ret : Datatype) (name : List Nat)
    (argTags : List Datatype) (hlen : argTags.length ≤ FFI_MAX_ARGS)
    (hvoid : Datatype.T_VOID ∈ argTags) :
    ∀ resolve prep, dlsym_lua dso ret name argTags resolve prep =
      (.error .voidArgType, dso) := by
  intro resolve prep
  unfold dlsym_lua
  rw [if_neg (by simp only [FFI_MAX_ARGS] at hlen ⊢; omega), if_pos hvoid]

/-- Witness for the amended C7 with `void` in the middle of three tags. -/
theorem c7_amended_witness :
    (([Datatype.T_INT, .T_VOID, .T_INT].length ≤ FFI_MAX_ARGS) ∧
      Datatype.T_VOID ∈ [Datatype.T_INT, .T_VOID, .T_INT]) ∧
    dlsym_lua (initDso [108]) .T_INT [102] [.T_INT, .T_VOID, .T_INT]
        (fun _ => some 1) .ok = (.error .voidArgType, initDso [108]) :=
  ⟨⟨by decide, by decide⟩,
    c7_amended_void_argument (initDso [108]) .T_INT [102] [.T_INT, .T_VOID, .T_INT]
      (by decide) (by decide) (fun _ => some 1) .ok⟩

/-- C8: `symcall_lua` with an argument count different from the declared
signature fails with the count-mismatch error for every native-call oracle —
the result does not depend on the oracle, so no native call is performed. -/
theorem c8_argument_count_mismatch (sym : Syminfo) (args : List LuaValue)
    (hcount : args.length ≠ sym.arg_types.length) :
    ∀ native, symcall sym args native =
      .error (.countMismatch sym.name sym.arg_types.length args.length) := by
  intro native
  unfold symcall
  rw [if_pos hcount]

/-- Witness for C8: zero arguments against a two-argument signature. -/
theorem c8_witness :
    (List.length ([] : List LuaValue) ≠
        (Syminfo.mk 3 [97, 100, 100] .T_INT [.T_INT, .T_INT] 1).arg_types.length) ∧
      symcall ⟨3, [97, 100, 100], .T_INT, [.T_INT, .T_INT], 1⟩ [] (fun _ => .intv 0) =
        .error (.countMismatch [97, 100, 100] 2 0) :=
  ⟨by decide,
    c8_argument_count_mismatch ⟨3, [97, 100, 100], .T_INT, [.T_INT, .T_INT], 1⟩ []
      (by decide) (fun _ => .intv 0)⟩


lemma getD_zero_headD (vs : List LuaValue) : vs.getD 0 .nil = vs.headD .nil := by
  cases vs <;> rfl

lemma getD_succ_tail (vs : List LuaValue) (j : Nat) :
    vs.getD (j + 1) .nil = vs.tail.getD j .nil := by
  cases vs <;> rfl

lemma checkArg_mismatch (t : Datatype) (v : LuaValue) (hvoid : t ≠ .T_VOID)
    (hc : canCoerce t v = false) : checkArg t v = .mismatch (expectedCat t) := by
  cases t
  case T_VOID => exact absurd rfl hvoid
  case T_VOID_PTR => cases v <;> simp_all [canCoerce, checkArg, expectedCat]
  case T_CHAR_PTR => cases v <;> simp_all [canCoerce, checkArg, expectedCat]
  case T_FLOAT =>
    rcases hcn : checknumber v with _ | q
    · simp [checkArg, expectedCat, hcn]
    · simp [canCoerce, checkArg, hcn] at hc
  case T_DOUBLE =>
    rcases hcn : checknumber v with _ | q
    · simp [checkArg, expectedCat, hcn]
    · simp [canCoerce, checkArg, hcn] at hc
  all_goals
    rcases h2 : checkinteger v with _ | n
    · simp [checkArg, intArg, intWidth, h2, expectedCat]
    · simp [canCoerce, checkArg, intArg, intWidth, h2] at hc

lemma checkArgsFrom_typeErr (ts : List Datatype) :
    ∀ (k : Nat) (vs : List LuaValue) (i : Nat),
      i < ts.length →
      (∀ j, j < i → canCoerce (ts.getD j .T_VOID) (vs.getD j .nil) = true) →
      ts.getD i .T_VOID ≠ .T_VOID →
      canCoerce (ts.getD i .T_VOID) (vs.getD i .nil) = false →
      checkArgsFrom k ts vs =
        .error (.typeErr (k + i + 1) (expectedCat (ts.getD i .T_VOID))) := by
  induction ts with
  | nil => intro k vs i hi _ _ _; simp at hi
  | cons t rest ih =>
    intro k vs i hi hok hvoid hbad
    cases i with
    | zero =>
      have hb : canCoerce t (vs.headD .nil) = false := by
        rw [← getD_zero_headD]; simpa using hbad
      have hv : t ≠ .T_VOID := by simpa using hvoid
      have h0 : checkArg t (vs.headD .nil) = .mismatch (expectedCat t) :=
        checkArg_mismatch t _ hv hb
      rw [List.headD_eq_head?] at h0
      simp [checkArgsFrom, h0]
    | succ j =>
      have h0 : canCoerce t (vs.headD .nil) = true := by
        have := hok 0 (Nat.succ_pos j)
        rw [← getD_zero_headD]; simpa using this
      obtain ⟨s, hs⟩ : ∃ s, checkArg t (vs.headD .nil) = .ok s := by
        unfold canCoerce at h0
        cases hca : checkArg t (vs.headD .nil) with
        | ok s => exact ⟨s, rfl⟩
        | voidArg => rw [hca] at h0; simp at h0
        | mismatch e => rw [hca] at h0; simp at h0
      have hrec := ih (k + 1) vs.tail j (by simpa using hi)
        (fun j2 hj2 => by
          have := hok (j2 + 1) (by omega)
          rw [List.getD_cons_succ, getD_succ_tail] at this
          exact this)
        (by rw [List.getD_cons_succ] at hvoid; exact hvoid)
        (by rw [List.getD_cons_succ, getD_succ_tail] at hbad; exact hbad)
      have harith : k + 1 + j + 1 = k + (j + 1) + 1 := by omega
      simp only [checkArgsFrom, hs, hrec, List.getD_cons_succ, harith]

/-- C4: if the caller value at (0-based) position `i` cannot be coerced to
the declared tag's native representation, while every earlier position
coerces (the loop checks positions in order), `symcall_lua` fails with an
argument type error that reports the 1-indexed position `i + 1` and names
the expected category of the declared tag. -/
theorem c4_argument_type_error (sym : Syminfo) (args : List LuaValue)
    (native : List RawSlot → RawSlot) (i : Nat)
    (hlen : args.length = sym.arg_types.length)
    (hi : i < sym.arg_types.length)
    (hprev : ∀ j, j < i →
      canCoerce (sym.arg_types.getD j .T_VOID) (args.getD j .nil) = true)
    (hvoid : sym.arg_types.getD i .T_VOID ≠ .T_VOID)
    (hbad : canCoerce (sym.arg_types.getD i .T_VOID) (args.getD i .nil) = false) :
    symcall sym args native =
      .error (.argError (.typeErr (i + 1)
        (expectedCat (sym.arg_types.getD i .T_VOID)))) := by
  unfold symcall
  rw [if_neg (by simp [hlen])]
  rw [if_neg (by cases hrt : sym.ret_type <;> simp [retvalSlotNull, hrt])]
  have hloop := checkArgsFrom_typeErr sym.arg_types 0 args i hi hprev hvoid hbad
  rw [hloop]
  simp

/-- Witness for C4: a boolean supplied where an `int` tag is declared is
reported at 1-indexed position 1 with the integer category. -/
theorem c4_witness :
    ((List.length [LuaValue.boolean true] =
        (Syminfo.mk 3 [97, 100, 100] .T_INT [.T_INT] 1).arg_types.length) ∧
      (0 < ([Datatype.T_INT] : List Datatype).length) ∧
      (([Datatype.T_INT].getD 0 .T_VOID ≠ .T_VOID)) ∧
      (canCoerce ([Datatype.T_INT].getD 0 .T_VOID)
        ([LuaValue.boolean true].getD 0 .nil) = false)) ∧
    symcall ⟨3, [97, 100, 100], .T_INT, [.T_INT], 1⟩ [.boolean true] (fun _ => .intv 0) =
      .error (.argError (.typeErr 1 (expectedCat ([Datatype.T_INT].getD 0 .T_VOID)))) :=
  ⟨⟨by decide, by decide, by decide, by decide⟩,
    c4_argument_type_error ⟨3, [97, 100, 100], .T_INT, [.T_INT], 1⟩ [.boolean true]
      (fun _ => .intv 0) 0 (by decide) (by decide)
      (fun j hj => absurd hj (by omega)) (by decide) (by decide)⟩


/-- C9: for a symbol declared with return tag `char*`, when the native call
writes a null pointer the invocation yields `nil` (and `nil` is distinct
from the empty string); when it writes a non-null pointer the invocation
yields a text value copied from the pointed-at bytes (up to the NUL
terminator, as `lua_pushstring` copies). -/
theorem c9_cstring_return (sym : Syminfo) (args : List LuaValue)
    (native : List RawSlot → RawSlot) (slots : List RawSlot) (r : Option (List Nat))
    (hret : sym.ret_type = .T_CHAR_PTR)
    (hlen : args.length = sym.arg_types.length)
    (hargs : checkArgsFrom 0 sym.arg_types args = .ok slots)
    (hnative : native slots = .cstring r) :
    symcall sym args native =
      .ok (.value (match r with
        | none => LuaValue.nil
        | some bytes => LuaValue.str (bytes.takeWhile (fun b => b != 0)))) ∧
      LuaValue.nil ≠ LuaValue.str [] := by
  refine ⟨?_, by simp⟩
  unfold symcall
  rw [if_neg (by simp [hlen])]
  rw [if_neg (by rw [hret]; simp [retvalSlotNull])]
  simp only [hargs]
  rw [hret]
  cases r with
  | none => simp only [hnative]; rfl
  | some bytes => simp only [hnative]; rfl

/-- Witness for C9 with a zero-argument symbol whose native call returns a
null `char*`. -/
theorem c9_witness :
    ((Syminfo.ret_type ⟨4, [103, 101, 116, 115], .T_CHAR_PTR, [], 1⟩ = .T_CHAR_PTR) ∧
      (List.length ([] : List LuaValue) =
        (Syminfo.mk 4 [103, 101, 116, 115] .T_CHAR_PTR [] 1).arg_types.length) ∧
      (checkArgsFrom 0 (Syminfo.mk 4 [103, 101, 116, 115] .T_CHAR_PTR [] 1).arg_types [] =
        .ok []) ∧
      ((fun _ => RawSlot.cstring none) ([] : List RawSlot) = .cstring none)) ∧
    (symcall ⟨4, [103, 101, 116, 115], .T_CHAR_PTR, [], 1⟩ [] (fun _ => .cstring none) =
        .ok (.value .nil) ∧
      LuaValue.nil ≠ LuaValue.str []) :=
  ⟨⟨rfl, rfl, rfl, rfl⟩,
    c9_cstring_return ⟨4, [103, 101, 116, 115], .T_CHAR_PTR, [], 1⟩ []
      (fun _ => .cstring none) [] none rfl rfl rfl rfl⟩

lemma dlsym_symbols (dso : Dso) (r : Datatype) (n : List Nat) (t : List Datatype)
    (res : List Nat → Option Nat) (p : FfiStatus) :
    (dlsym_lua dso r n t res p).2.symbols = dso.symbols ∨
      (∃ addr, (dlsym_lua dso r n t res p).2.symbols =
          dso.symbols ++ [⟨n.length, n.takeWhile (fun b => b != 0), r, t, addr⟩] ∧
        t.length ≤ FFI_MAX_ARGS ∧ Datatype.T_VOID ∉ t) := by
  unfold dlsym_lua
  by_cases h1 : 2 + t.length < 2 ∨ 2 + t.length > FFI_MAX_ARGS + 2
  · rw [if_pos h1]; exact Or.inl rfl
  · rw [if_neg h1]
    by_cases h2 : Datatype.T_VOID ∈ t
    · rw [if_pos h2]; exact Or.inl rfl
    · rw [if_neg h2]
      rcases hres : res (n.takeWhile (fun b => b != 0)) with _ | addr
      · simp only [hres]; exact Or.inl trivial
      · simp only [hres]
        cases p with
        | ok =>
          refine Or.inr ⟨addr, rfl, ?_, h2⟩
          simp only [FFI_MAX_ARGS] at h1 ⊢
          omega
        | badTypedef => exact Or.inl rfl
        | badAbi => exact Or.inl rfl
        | badArgtype => exact Or.inl rfl

lemma step_preserves (d : Dso) (op : Op) (h : DsoInv d) : DsoInv (step d op) := by
  cases op with
  | decl r n t res p =>
    intro s hs
    simp only [step] at hs
    rcases dlsym_symbols d r n t res p with heq | ⟨addr, heq, hlen2, hvoid2⟩
    · rw [heq] at hs; exact h s hs
    · rw [heq] at hs
      rcases List.mem_append.mp hs with hm | hm
      · exact h s hm
      · rw [List.mem_singleton] at hm
        subst hm
        exact ⟨hlen2, hvoid2⟩
  | closeLib u =>
    intro s hs
    cases hopen : d.isOpen
    · simp only [step, dso_close, hopen] at hs
      exact h s hs
    · simp [step, dso_close, hopen] at hs
  | call args => exact h

lemma foldl_preserves (ops : List Op) (d : Dso) (h : DsoInv d) :
    DsoInv (List.foldl step d ops) := by
  induction ops generalizing d with
  | nil => exact h
  | cons op rest ih => exact ih (step d op) (step_preserves d op h)

lemma checkArg_ne_voidArg (t : Datatype) (v : LuaValue) (ht : t ≠ .T_VOID) :
    checkArg t v ≠ .voidArg := by
  cases t
  case T_VOID => exact absurd rfl ht
  case T_VOID_PTR => cases v <;> simp [checkArg]
  case T_CHAR_PTR => cases v <;> simp [checkArg]
  case T_FLOAT => rcases hcn : checknumber v with _ | q <;> simp [checkArg, hcn]
  case T_DOUBLE => rcases hcn : checknumber v with _ | q <;> simp [checkArg, hcn]
  all_goals rcases h2 : checkinteger v with _ | n <;>
    simp [checkArg, intArg, intWidth, h2]

lemma checkArgsFrom_ne_voidArg : ∀ (ts : List Datatype), Datatype.T_VOID ∉ ts →
    ∀ (k : Nat) (vs : List LuaValue) (pos : Nat),
      checkArgsFrom k ts vs ≠ .error (.voidArg pos) := by
  intro ts
  induction ts with
  | nil => intro _ k vs pos h; simp [checkArgsFrom] at h
  | cons t rest ih =>
    intro hts k vs pos h
    simp only [List.mem_cons, not_or] at hts
    rcases hca : checkArg t (vs.headD .nil) with s | _ | e
    · simp only [checkArgsFrom, hca] at h
      rcases hrec : checkArgsFrom (k + 1) rest vs.tail with e2 | l
      · rw [hrec] at h
        simp only [Except.error.injEq] at h
        exact ih hts.2 (k + 1) vs.tail pos (by rw [hrec, h])
      · rw [hrec] at h
        simp at h
    · exact checkArg_ne_voidArg t _ (fun he => hts.1 he.symm) hca
    · simp only [checkArgsFrom, hca] at h
      simp at h

lemma symcall_no_voidArg (sym : Syminfo) (hvoid : Datatype.T_VOID ∉ sym.arg_types) :
    ∀ (args : List LuaValue) (native : List RawSlot → RawSlot) (pos : Nat),
      symcall sym args native ≠ .error (.argError (.voidArg pos)) := by
  intro args native pos h
  unfold symcall at h
  by_cases hc : args.length ≠ sym.arg_types.length
  · rw [if_pos hc] at h; simp at h
  · rw [if_neg hc] at h
    rw [if_neg (by cases hrt : sym.ret_type <;> simp [retvalSlotNull, hrt])] at h
    rcases hca : checkArgsFrom 0 sym.arg_types args with e | l
    · simp only [hca, Except.error.injEq, ArgError.voidArg.injEq] at h
      simp only [SymcallErr.argError.injEq] at h
      exact checkArgsFrom_ne_voidArg sym.arg_types hvoid 0 args pos (by rw [hca, h])
    · simp only [hca] at h
      simp at h

/-- C10: every symbol stored in a library state reachable from `new_lua` by
any sequence of declare/close/invoke operations has at most `FFI_MAX_ARGS`
argument tags (so the fixed 32-slot argument arrays of `symcall_lua` are
never indexed out of bounds) and no `T_VOID` among them, and consequently
`symcall_lua` on such a symbol can never return the void-argument guard
error.  (The unknown-tag `default` branch is unrepresentable over the closed
`Datatype` enumeration.) -/
theorem c10_symbol_invariant (path : List Nat) (ops : List Op) (s : Syminfo)
    (hmem : s ∈ (List.foldl step (initDso path) ops).symbols) :
    (s.arg_types.length ≤ FFI_MAX_ARGS ∧ Datatype.T_VOID ∉ s.arg_types) ∧
      ∀ (args : List LuaValue) (native : List RawSlot → RawSlot) (pos : Nat),
        symcall s args native ≠ .error (.argError (.voidArg pos)) := by
  have hinv : DsoInv (List.foldl step (initDso path) ops) :=
    foldl_preserves ops (initDso path) (fun s hs => absurd hs (by simp [initDso]))
  have hs := hinv s hmem
  exact ⟨hs, symcall_no_voidArg s hs.2⟩

/-- Witness for C10 after one successful declaration. -/
theorem c10_witness :
    ((⟨1, [102], .T_INT, [.T_INT], 9⟩ : Syminfo) ∈
        (List.foldl step (initDso [108])
          [Op.decl .T_INT [102] [.T_INT] (fun _ => some 9) .ok]).symbols) ∧
      (((Syminfo.mk 1 [102] .T_INT [.T_INT] 9).arg_types.length ≤ FFI_MAX_ARGS ∧
          Datatype.T_VOID ∉ (Syminfo.mk 1 [102] .T_INT [.T_INT] 9).arg_types) ∧
        ∀ (args : List LuaValue) (native : List RawSlot → RawSlot) (pos : Nat),
          symcall ⟨1, [102], .T_INT, [.T_INT], 9⟩ args native ≠
            .error (.argError (.voidArg pos))) :=
  ⟨by decide,
    c10_symbol_invariant [108] [Op.decl .T_INT [102] [.T_INT] (fun _ => some 9) .ok]
      ⟨1, [102], .T_INT, [.T_INT], 9⟩ (by decide)⟩


end Dlopen
